import Mathlib

/-!
Verification of the EasyFlow provider-registry core.

Shallow embedding of:
  pocketflow/utils/llm.py        (generation registry: register, call_llm)
  pocketflow/utils/search.py     (search registry: register, web_search)
  pocketflow/utils/embedding.py  (embedding registry: register, embed)
  pocketflow/nodes/llm_nodes.py  (LLMNode: prep / exec / post)
  pocketflow/nodes/search_nodes.py (SearchNode: prep / exec / _format_results)

Modelling conventions:
  - A Python dict is an insertion-ordered association list with unique keys
    (dictGet / dictSet / dictKeys below reproduce lookup, insert-or-replace,
    and key enumeration in insertion order).
  - Provider functions are typed Lean functions, so the runtime
    isinstance / callable checks of the source (TypeError branches) cannot
    fire in the model and are omitted; every other branch is kept.
  - Keyword-option pass-through (**kwargs) carries no logic in the source
    and is not modelled.
  - Python string formatting (str.format) is modelled for replacement
    fields that are plain \w+ names; other field shapes (attribute or index
    access, conversions, format specs) are mapped to an error, which agrees
    with CPython on every input used in a theorem below.
-/

set_option autoImplicit false

namespace EasyFlow

/-- Lookup in a Python-dict model (first matching key). -/
def dictGet {α : Type} (m : List (String × α)) (k : String) : Option α :=
  match m with
  | [] => none
  | (k0, v0) :: rest => if k0 = k then some v0 else dictGet rest k

/-- Insert-or-replace in a Python-dict model: an existing key keeps its
position and gets the new value, a new key is appended at the end. -/
def dictSet {α : Type} (m : List (String × α)) (k : String) (v : α) :
    List (String × α) :=
  match m with
  | [] => [(k, v)]
  | (k0, v0) :: rest =>
      if k0 = k then (k0, v) :: rest else (k0, v0) :: dictSet rest k v

/-- Keys of a Python-dict model, in insertion order (list(d.keys())). -/
def dictKeys {α : Type} (m : List (String × α)) : List String :=
  m.map Prod.fst

/-- Membership test of a character in a string, modelling the Python
expression c in s at the character level. -/
def containsChar (s : String) (c : Char) : Bool :=
  s.data.contains c

/-- The Python whitespace characters stripped by str.strip(). -/
def isPyWhitespace (c : Char) : Bool :=
  c = ' ' || c = '\t' || c = '\n' || c = '\r' || c = '\x0b' || c = '\x0c'

/-- Model of Python str.strip(): remove leading and trailing whitespace. -/
def pyStrip (s : String) : String :=
  ⟨((s.data.dropWhile isPyWhitespace).reverse.dropWhile isPyWhitespace).reverse⟩

/-- The single-quote character, written by code point to keep string
literals free of quote characters. -/
def sq : String := ⟨[Char.ofNat 39]⟩

/-- Model of Python repr for a string that contains no quote characters:
the string surrounded by single quotes.  (CPython switches delimiters or
escapes when the string itself contains quotes; every theorem below that
relies on this model restricts provider names to be quote-free.) -/
def pyStrRepr (s : String) : String := sq ++ s ++ sq

/-- Model of Python sep.join(parts). -/
def pyJoin (sep : String) : List String → String
  | [] => ""
  | [x] => x
  | x :: xs => x ++ sep ++ pyJoin sep xs

/-- Model of the Python repr of a list of (quote-free) strings, as produced
by the f-string interpolation of list(_providers.keys()). -/
def pyListRepr (names : List String) : String :=
  "[" ++ pyJoin ", " (names.map pyStrRepr) ++ "]"

/-- Registration-time errors (ValueError / TypeError in the source). -/
inductive RegisterErr where
  | valueErr (msg : String)
  deriving DecidableEq

/-- Dispatch-time errors.  All four are ValueError in the source; the
constructor records which raise site produced the message. -/
inductive DispatchErr where
  | invalidAddress (msg : String)
  | noProviders (msg : String)
  | noDefault (msg : String)
  | unknownProvider (msg : String)
  deriving DecidableEq

/-- The provider-name validation shared verbatim by the register functions
of llm.py, search.py and embedding.py (the three files contain the same
four checks with the same messages; the callable check cannot fail in the
typed model). -/
def registerNameError (name : String) : Option RegisterErr :=
  if name = "" then
    some (.valueErr "Provider name must be a non-empty string")
  else if pyStrip name ≠ name then
    some (.valueErr ("Provider name " ++ pyStrRepr name ++
      " contains leading/trailing whitespace"))
  else if containsChar name '/' then
    some (.valueErr ("Provider name " ++ pyStrRepr name ++
      " cannot contain " ++ pyStrRepr "/" ++ " character"))
  else
    none

/-- The UnknownProvider message of all three dispatch functions:
f-string over the unknown name and list(_providers.keys()). -/
def unknownProviderMsg (provider : String) (available : List String) : String :=
  "Provider " ++ pyStrRepr provider ++ " not registered. " ++
  "Available providers: " ++ pyListRepr available ++ ". " ++
  "Use register(" ++ pyStrRepr provider ++ ", fn) to register it."

/-- Python str.split(sep, 1) on the slash, for strings known to contain a
slash: the part before the first slash and everything after it. -/
def splitOnce (s : String) : String × String :=
  (⟨s.data.takeWhile (fun c => c ≠ '/')⟩,
   ⟨(s.data.dropWhile (fun c => c ≠ '/')).drop 1⟩)

/-- The string needle occurs as a contiguous substring of hay. -/
def occursIn (needle hay : String) : Prop :=
  ∃ a b : List Char, hay.data = a ++ needle.data ++ b

end EasyFlow

namespace EasyFlow.LlmU

/-- A generation provider function: (prompt, model) to response text. -/
abbrev Fn := String → Option String → String

/-- The module-level state of pocketflow/utils/llm.py:
_providers and _default. -/
structure Registry where
  providers : List (String × Fn)
  default : Option String

/-- The empty registry (module load state). -/
def emptyRegistry : Registry := { providers := [], default := none }

/-- llm.register(name, call_fn): validate the name, insert or overwrite the
mapping entry, and elect the name as default iff no default exists yet. -/
def register (name : String) (fn : Fn) (st : Registry) :
    Except RegisterErr Registry :=
  match registerNameError name with
  | some e => .error e
  | none =>
      .ok { providers := dictSet st.providers name fn
            default := match st.default with
                       | none => some name
                       | some d => some d }

/-- The address-parsing block of call_llm: if model is truthy and contains
a slash, split once on the first slash into (provider, model-name), failing
when the provider part is empty; otherwise the provider is absent and the
model string passes through unchanged. -/
def parseModel (model : Option String) :
    Except DispatchErr (Option String × Option String) :=
  match model with
  | none => .ok (none, none)
  | some m =>
      if m ≠ "" ∧ containsChar m '/' = true then
        let (prov, modelName) := splitOnce m
        if prov = "" then
          .error (.invalidAddress ("Invalid model format " ++ pyStrRepr m ++
            ": provider part is empty"))
        else
          .ok (some prov, some modelName)
      else
        .ok (none, some m)

/-- The locked section of call_llm: substitute the default for an absent
provider, distinguish the two NoProviderConfigured messages, reject unknown
providers with the enumerating message, and otherwise fetch the function. -/
def lookupProvider (provOpt : Option String) (st : Registry) :
    Except DispatchErr Fn :=
  let provider := match provOpt with
                  | none => st.default
                  | some p => some p
  match provider with
  | none =>
      if st.providers.isEmpty then
        .error (.noProviders
          "No providers registered. Register a provider first using register()")
      else
        .error (.noDefault
          "No default provider set and no provider specified in model")
  | some p =>
      match dictGet st.providers p with
      | none => .error (.unknownProvider
          (unknownProviderMsg p (dictKeys st.providers)))
      | some fn => .ok fn

/-- llm.call_llm(prompt, model): parse the address, resolve the provider
under the lock, then invoke the provider function outside the lock. -/
def call_llm (prompt : String) (model : Option String) (st : Registry) :
    Except DispatchErr String :=
  match parseModel model with
  | .error e => .error e
  | .ok (provOpt, modelName) =>
      match lookupProvider provOpt st with
      | .error e => .error e
      | .ok fn => .ok (fn prompt modelName)

/-- A sequence of register calls run in order against a registry; a call
that raises leaves the module state unchanged (the source validates before
mutating). -/
def regFold : List (String × Fn) → Registry → Registry
  | [], st => st
  | (n, f) :: rest, st =>
      match register n f st with
      | .ok st2 => regFold rest st2
      | .error _ => regFold rest st

/-- Registry states produced by some sequence of register calls starting
from the module load state. -/
def Reachable (st : Registry) : Prop :=
  ∃ calls, regFold calls emptyRegistry = st

end EasyFlow.LlmU

namespace EasyFlow.SearchU

/-- A search result record: a Python dict in which each of the three keys
may be absent (dict.get supplies the defaults at formatting time). -/
structure SearchRecord where
  title : Option String
  snippet : Option String
  url : Option String
  deriving DecidableEq

/-- A search provider function: (query, num_results) to records. -/
abbrev Fn := String → Nat → List SearchRecord

/-- The module-level state of pocketflow/utils/search.py. -/
structure Registry where
  providers : List (String × Fn)
  default : Option String

/-- The empty registry (module load state). -/
def emptyRegistry : Registry := { providers := [], default := none }

/-- search.register(name, search_fn): same validation and election as the
generation registry. -/
def register (name : String) (fn : Fn) (st : Registry) :
    Except RegisterErr Registry :=
  match registerNameError name with
  | some e => .error e
  | none =>
      .ok { providers := dictSet st.providers name fn
            default := match st.default with
                       | none => some name
                       | some d => some d }

/-- The locked section of web_search: the provider argument is used
directly as the lookup key — no address parsing happens anywhere in the
search domain; an absent provider falls back to the default. -/
def lookupProvider (provOpt : Option String) (st : Registry) :
    Except DispatchErr Fn :=
  let provider := match provOpt with
                  | none => st.default
                  | some p => some p
  match provider with
  | none =>
      if st.providers.isEmpty then
        .error (.noProviders
          "No providers registered. Register a provider first using register()")
      else
        .error (.noDefault "No default provider set and no provider specified")
  | some p =>
      match dictGet st.providers p with
      | none => .error (.unknownProvider
          (unknownProviderMsg p (dictKeys st.providers)))
      | some fn => .ok fn

/-- search.web_search(query, provider, num_results): resolve the provider
under the lock, then invoke the provider function outside the lock. -/
def web_search (query : String) (provider : Option String)
    (numResults : Nat) (st : Registry) :
    Except DispatchErr (List SearchRecord) :=
  match lookupProvider provider st with
  | .error e => .error e
  | .ok fn => .ok (fn query numResults)

end EasyFlow.SearchU

namespace EasyFlow.EmbdU

/-- An embedding provider function: (text, model) to a numeric vector. -/
abbrev Fn := String → Option String → List Int

/-- The module-level state of pocketflow/utils/embedding.py. -/
structure Registry where
  providers : List (String × Fn)
  default : Option String

/-- The empty registry (module load state). -/
def emptyRegistry : Registry := { providers := [], default := none }

/-- embedding.register(name, embed_fn): same validation and election as
the generation registry. -/
def register (name : String) (fn : Fn) (st : Registry) :
    Except RegisterErr Registry :=
  match registerNameError name with
  | some e => .error e
  | none =>
      .ok { providers := dictSet st.providers name fn
            default := match st.default with
                       | none => some name
                       | some d => some d }

/-- The address-parsing block of embed, textually identical to the one in
call_llm. -/
def parseModel (model : Option String) :
    Except DispatchErr (Option String × Option String) :=
  match model with
  | none => .ok (none, none)
  | some m =>
      if m ≠ "" ∧ containsChar m '/' = true then
        let (prov, modelName) := splitOnce m
        if prov = "" then
          .error (.invalidAddress ("Invalid model format " ++ pyStrRepr m ++
            ": provider part is empty"))
        else
          .ok (some prov, some modelName)
      else
        .ok (none, some m)

/-- The locked section of embed, same shape as the one in call_llm. -/
def lookupProvider (provOpt : Option String) (st : Registry) :
    Except DispatchErr Fn :=
  let provider := match provOpt with
                  | none => st.default
                  | some p => some p
  match provider with
  | none =>
      if st.providers.isEmpty then
        .error (.noProviders
          "No providers registered. Register a provider first using register()")
      else
        .error (.noDefault
          "No default provider set and no provider specified in model")
  | some p =>
      match dictGet st.providers p with
      | none => .error (.unknownProvider
          (unknownProviderMsg p (dictKeys st.providers)))
      | some fn => .ok fn

/-- embedding.embed(text, model): parse, resolve, invoke. -/
def embed (text : String) (model : Option String) (st : Registry) :
    Except DispatchErr (List Int) :=
  match parseModel model with
  | .error e => .error e
  | .ok (provOpt, modelName) =>
      match lookupProvider provOpt st with
      | .error e => .error e
      | .ok fn => .ok (fn text modelName)

end EasyFlow.EmbdU

namespace EasyFlow.Nodes

open EasyFlow

/-- Python \w for the ASCII range: letters, digits, underscore.  (The nodes
in the repository only use ASCII placeholder names.) -/
def isWordChar (c : Char) : Bool :=
  c.isAlphanum || c = '_'

/-- re.findall applied to the placeholder pattern (an opening brace, one or
more word characters, a closing brace) over a character list, scanning left
to right.  Because a match never contains an opening brace after its first
character, advancing one character at a time finds exactly the
non-overlapping matches that re.findall reports. -/
def extractKeysAux : List Char → List String
  | [] => []
  | c :: rest =>
      if c = '{' then
        let w := rest.takeWhile isWordChar
        match rest.drop w.length with
        | '}' :: _ =>
            if w.isEmpty then extractKeysAux rest else ⟨w⟩ :: extractKeysAux rest
        | _ => extractKeysAux rest
      else extractKeysAux rest

/-- String helper modelling shared.get(key, "") on the shared store. -/
def sharedGet (shared : List (String × String)) (k : String) : String :=
  (dictGet shared k).getD ""

/-- The configuration of LLMNode (llm_nodes.py).  max_retries, wait and the
keyword pass-through carry no logic inside the node and are not modelled. -/
structure LLMNode where
  input_key : String
  output_key : String
  prompt_template : String
  model : Option String

/-- LLMNode._extract_template_keys: the placeholder names appearing in the
prompt template (the source stores them as a set; the model keeps the match
list, whose membership is the same). -/
def LLMNode.templateKeys (n : LLMNode) : List String :=
  extractKeysAux n.prompt_template.data

/-- LLMNode.prep: gather every template key from the shared store with
empty-string default, ensure input_key is present, and alias the input_key
value to the placeholder named input when the template references it and
input_key differs from it. -/
def LLMNode.prep (n : LLMNode) (shared : List (String × String)) :
    List (String × String) :=
  let ctx := n.templateKeys.foldl
    (fun ctx k => dictSet ctx k (sharedGet shared k)) []
  let ctx := if dictGet ctx n.input_key = none then
               dictSet ctx n.input_key (sharedGet shared n.input_key)
             else ctx
  if "input" ∈ n.templateKeys ∧ n.input_key ≠ "input" then
    dictSet ctx "input" (sharedGet shared n.input_key)
  else ctx

/-- True iff every character of the word is an ASCII digit; CPython routes
such field names (and the empty name) to positional-argument lookup, which
fails with IndexError because str.format(**context) passes no positional
arguments. -/
def allDigits (w : List Char) : Bool := w.all Char.isDigit

/-- Model of CPython str.format over a keyword-argument mapping, restricted
to replacement fields that are plain word-character names.  The first list
argument is the scanning mode: none is literal mode, some acc is inside a
replacement field with the name characters read so far in reverse.  Double
braces are literals, a lone closing brace or an unterminated field is a
ValueError, an empty or all-digit field name is an IndexError (positional
lookup, and str.format(**context) passes no positional arguments), a
missing keyword is a KeyError.  A field containing a character outside \w
is mapped to an error; CPython agrees on every such input appearing in a
theorem below (attribute or index tricks that CPython would accept are
outside the placeholder grammar the nodes document and use). -/
def formatAux (ctx : List (String × String)) :
    Option (List Char) → List Char → Except String (List Char)
  | none, [] => .ok []
  | none, '{' :: '{' :: rest => (fun l => '{' :: l) <$> formatAux ctx none rest
  | none, '}' :: '}' :: rest => (fun l => '}' :: l) <$> formatAux ctx none rest
  | none, '}' :: _ =>
      .error "ValueError: single closing brace encountered in format string"
  | none, '{' :: rest => formatAux ctx (some []) rest
  | none, c :: rest => (fun l => c :: l) <$> formatAux ctx none rest
  | some _, [] => .error "ValueError: expected a closing brace before end of string"
  | some acc, '}' :: rest =>
      let w := acc.reverse
      if w.isEmpty || allDigits w then
        .error "IndexError: replacement index out of range"
      else
        match dictGet ctx ⟨w⟩ with
        | some v => (fun l => v.data ++ l) <$> formatAux ctx none rest
        | none => .error ("KeyError: " ++ String.mk w)
  | some acc, c :: rest =>
      if isWordChar c then formatAux ctx (some (c :: acc)) rest
      else .error "ValueError: unsupported replacement field in format string"

/-- self.prompt_template.format(**context). -/
def pythonFormat (tmpl : String) (ctx : List (String × String)) :
    Except String String :=
  (fun l => String.mk l) <$> formatAux ctx none tmpl.data

/-- LLMNode.exec: render the template over the gathered context, then call
call_llm with the configured model.  A format error (left) is a ValueError
raised by str.format; a dispatch error (right) comes from call_llm. -/
def LLMNode.exec (n : LLMNode) (st : LlmU.Registry)
    (ctx : List (String × String)) : Except (String ⊕ DispatchErr) String :=
  match pythonFormat n.prompt_template ctx with
  | .error e => .error (.inl e)
  | .ok prompt =>
      match LlmU.call_llm prompt n.model st with
      | .error e => .error (.inr e)
      | .ok r => .ok r

/-- LLMNode.post: write the execution result under output_key. -/
def LLMNode.post (n : LLMNode) (shared : List (String × String))
    (execRes : String) : List (String × String) :=
  dictSet shared n.output_key execRes

/-- The prep / exec / post lifecycle of one LLMNode step, as invoked in
order by the orchestration framework. -/
def LLMNode.run (n : LLMNode) (st : LlmU.Registry)
    (shared : List (String × String)) :
    Except (String ⊕ DispatchErr) (List (String × String)) :=
  match n.exec st (n.prep shared) with
  | .error e => .error e
  | .ok r => .ok (n.post shared r)

/-- The configuration of SearchNode (search_nodes.py); max_retries, wait
and the keyword pass-through are not modelled, as for LLMNode. -/
structure SearchNode where
  input_key : String
  output_key : String
  provider : Option String
  num_results : Nat
  format_results : Bool

/-- The value SearchNode.exec returns: a raw record list when formatting is
disabled, a formatted string when it is enabled. -/
inductive SearchOut where
  | raw (rs : List SearchU.SearchRecord)
  | formatted (s : String)
  deriving DecidableEq

/-- SearchNode.prep: shared.get(self.input_key, ""). -/
def SearchNode.prep (n : SearchNode) (shared : List (String × String)) :
    String :=
  sharedGet shared n.input_key

/-- SearchNode._format_results: "No results found." on an empty list, and
otherwise one block per record over enumerate(results, 1), with dict.get
defaults for the three fields, joined by a double newline. -/
def SearchNode.formatResults (results : List SearchU.SearchRecord) : String :=
  if results.isEmpty then "No results found."
  else
    let formatted := results.enum.map (fun p =>
      let title := p.2.title.getD "No title"
      let snippet := p.2.snippet.getD "No description"
      let url := p.2.url.getD ""
      Nat.repr (p.1 + 1) ++ ". " ++ title ++ "\n   " ++ snippet ++
        "\n   URL: " ++ url)
    pyJoin "\n\n" formatted

/-- SearchNode.exec: an empty query short-circuits to the empty result of
the configured shape; otherwise dispatch through web_search and optionally
format. -/
def SearchNode.exec (n : SearchNode) (st : SearchU.Registry)
    (query : String) : Except DispatchErr SearchOut :=
  if query.isEmpty then
    .ok (if n.format_results then .formatted "" else .raw [])
  else
    match SearchU.web_search query n.provider n.num_results st with
    | .error e => .error e
    | .ok results =>
        .ok (if n.format_results then .formatted (SearchNode.formatResults results)
             else .raw results)

end EasyFlow.Nodes

deriving instance DecidableEq for Except

namespace EasyFlow.Nodes

open EasyFlow

/-- Well-formed templates: the fragment of the str.format grammar that the
nodes document and use — literal characters, doubled braces, and
replacement fields that are nonempty non-all-digit word-character names.
The mode argument is as in formatAux.  On this fragment the model of
str.format agrees with CPython exactly. -/
def wfAux : Option (List Char) → List Char → Bool
  | none, [] => true
  | none, '{' :: '{' :: rest => wfAux none rest
  | none, '}' :: '}' :: rest => wfAux none rest
  | none, '}' :: _ => false
  | none, '{' :: rest => wfAux (some []) rest
  | none, _ :: rest => wfAux none rest
  | some _, [] => false
  | some acc, '}' :: rest =>
      let w := acc.reverse
      !w.isEmpty && !allDigits w && wfAux none rest
  | some acc, c :: rest => isWordChar c && wfAux (some (c :: acc)) rest

/-- A template is well formed when a scan starting in literal mode is. -/
def wfTemplate (tmpl : String) : Bool := wfAux none tmpl.data

/-- Specification-side renderer, written from the words of the spec:
substitute each referenced placeholder with its gathered string value,
leave literal text (and escaped braces) unchanged.  Same scanning modes as
formatAux; the function is total by construction. -/
def renderAux (g : String → String) : Option (List Char) → List Char → List Char
  | none, [] => []
  | none, '{' :: '{' :: rest => '{' :: renderAux g none rest
  | none, '}' :: '}' :: rest => '}' :: renderAux g none rest
  | none, '{' :: rest => renderAux g (some []) rest
  | none, c :: rest => c :: renderAux g none rest
  | some _, [] => []
  | some acc, '}' :: rest => (g ⟨acc.reverse⟩).data ++ renderAux g none rest
  | some acc, c :: rest => renderAux g (some (c :: acc)) rest

/-- The replacement-field names a format scan will look up, in order. -/
def fieldKeys : Option (List Char) → List Char → List String
  | none, [] => []
  | none, '{' :: '{' :: rest => fieldKeys none rest
  | none, '}' :: '}' :: rest => fieldKeys none rest
  | none, '{' :: rest => fieldKeys (some []) rest
  | none, _ :: rest => fieldKeys none rest
  | some _, [] => []
  | some acc, '}' :: rest => String.mk acc.reverse :: fieldKeys none rest
  | some acc, c :: rest => fieldKeys (some (c :: acc)) rest

/-- The mode prefix: the characters already consumed by a scan that is in
the given mode, as they appeared in the template. -/
def modePrefix : Option (List Char) → List Char
  | none => []
  | some acc => '{' :: acc.reverse

/-- The value LLMNode.prep gathers for a referenced placeholder: the shared
value under the placeholder name with empty-string default, except that the
placeholder named input is aliased to the value under input_key when the
template references input and input_key differs from it. -/
def LLMNode.gathered (n : LLMNode) (shared : List (String × String))
    (k : String) : String :=
  if k = "input" ∧ n.input_key ≠ "input" ∧ "input" ∈ n.templateKeys then
    sharedGet shared n.input_key
  else
    sharedGet shared k

end EasyFlow.Nodes

/-! Spec-side definitions and concrete fixtures used by the theorems. -/

namespace EasyFlow.Nodes

open EasyFlow

/-- The result-block shape written from the words of the spec
(one numbered block per record, with the fixed per-field defaults), to be
compared with SearchNode.formatResults. -/
def formatBlockSpec (i : Nat) (r : SearchU.SearchRecord) : String :=
  Nat.repr i ++ ". " ++ r.title.getD "No title" ++ "\n   " ++
  r.snippet.getD "No description" ++ "\n   URL: " ++ r.url.getD ""

/-- A default-configured generation adapter whose template is the single
replacement field named 0. -/
def c3Node : LLMNode :=
  { input_key := "input", output_key := "output",
    prompt_template := "{0}", model := none }

/-- A generation adapter with a well-formed one-placeholder template. -/
def c3WitnessNode : LLMNode :=
  { input_key := "input", output_key := "output",
    prompt_template := "Hello {name}!", model := none }

/-- A generation adapter configured with input_key question and the default
template. -/
def c6Node : LLMNode :=
  { input_key := "question", output_key := "output",
    prompt_template := "{input}", model := none }

/-- A generation registry holding the mock echo provider of the spec
(returns the model identifier, a colon, and the prompt; str(None) when the
model is absent). -/
def echoReg : LlmU.Registry :=
  { providers := [("echo", fun prompt modelName =>
      (modelName.getD "None") ++ ":" ++ prompt)]
    default := some "echo" }

/-- The adapter configuration of the end-to-end generation example. -/
def echoNode : LLMNode :=
  { input_key := "input", output_key := "output",
    prompt_template := "{input}", model := some "echo/m1" }

/-- A search adapter with formatting disabled. -/
def c4Node : SearchNode :=
  { input_key := "query", output_key := "search_results", provider := none,
    num_results := 5, format_results := false }

/-- A search registry with one provider returning a fixed record. -/
def c4Reg : SearchU.Registry :=
  { providers := [("s", fun _ _ => [⟨some "T", none, none⟩])]
    default := some "s" }

end EasyFlow.Nodes

namespace EasyFlow

/-- A generation registry with one provider and an externally cleared
default (the administrative reset the spec allows). -/
def c1Reg : LlmU.Registry :=
  { providers := [("zz", fun prompt _ => prompt)], default := none }

/-- A generation registry with two providers, used to exercise the
UnknownProvider message. -/
def c1WitnessReg : LlmU.Registry :=
  { providers := [("alpha", fun prompt _ => prompt),
                  ("beta", fun prompt _ => prompt)]
    default := some "alpha" }

/-- A one-provider generation registry whose provider echoes prompt and
resolved model name. -/
def c2LlmReg : LlmU.Registry :=
  { providers := [("a", fun prompt modelName =>
      prompt ++ "|" ++ modelName.getD "None")]
    default := some "a" }

/-- A one-provider search registry with the same provider name. -/
def c2SearchReg : SearchU.Registry :=
  { providers := [("a", fun _ _ => [])], default := some "a" }

/-- A concrete generation provider function. -/
def w5f : LlmU.Fn := fun p _ => p

/-- A second, distinguishable generation provider function. -/
def w5g : LlmU.Fn := fun p _ => p ++ "!"

/-- The registry reached by registering provider a once. -/
def c5St : LlmU.Registry := LlmU.regFold [("a", w5f)] LlmU.emptyRegistry

end EasyFlow

/-! Helper lemmas about the dict model. -/

namespace EasyFlow

theorem dictGet_dictSet_self {α : Type} (m : List (String × α)) (k : String) (v : α) :
    dictGet (dictSet m k v) k = some v := by
  induction m with
  | nil => simp [dictSet, dictGet]
  | cons p rest ih =>
      obtain ⟨k0, v0⟩ := p
      by_cases h : k0 = k <;> simp [dictSet, dictGet, h, ih]

theorem dictGet_dictSet_ne {α : Type} (m : List (String × α)) (k k1 : String) (v : α)
    (h : k1 ≠ k) : dictGet (dictSet m k v) k1 = dictGet m k1 := by
  induction m with
  | nil =>
      have hk : ¬ (k = k1) := fun he => h he.symm
      simp [dictSet, dictGet, hk]
  | cons p rest ih =>
      obtain ⟨k0, v0⟩ := p
      by_cases h0 : k0 = k
      · subst h0
        have hk01 : ¬ (k0 = k1) := fun he => h he.symm
        simp [dictSet, dictGet, hk01]
      · simp [dictSet, dictGet, h0, ih]

theorem foldl_dictSet_notin {α : Type} (f : String → α) (ks : List String)
    (m0 : List (String × α)) (k : String) (hk : k ∉ ks) :
    dictGet (ks.foldl (fun m k2 => dictSet m k2 (f k2)) m0) k = dictGet m0 k := by
  induction ks generalizing m0 with
  | nil => rfl
  | cons a tl ih =>
      have hka : k ≠ a := fun he => hk (he ▸ List.mem_cons_self a tl)
      have htl : k ∉ tl := fun he => hk (List.mem_cons_of_mem a he)
      simp only [List.foldl_cons]
      rw [ih _ htl, dictGet_dictSet_ne _ _ _ _ hka]

theorem foldl_dictSet_get {α : Type} (f : String → α) (ks : List String)
    (m0 : List (String × α)) (k : String) (hk : k ∈ ks) :
    dictGet (ks.foldl (fun m k2 => dictSet m k2 (f k2)) m0) k = some (f k) := by
  induction ks generalizing m0 with
  | nil => cases hk
  | cons a tl ih =>
      by_cases h : k ∈ tl
      · simp only [List.foldl_cons]
        exact ih _ h
      · have hka : k = a := by
          rcases List.mem_cons.mp hk with h1 | h1
          · exact h1
          · exact absurd h1 h
        subst hka
        simp only [List.foldl_cons]
        rw [foldl_dictSet_notin f tl _ k h, dictGet_dictSet_self]

end EasyFlow

/-! Helper lemmas about gathering and rendering. -/

namespace EasyFlow.Nodes

open EasyFlow

/-- prep gathers exactly the aliased shared value for every placeholder the
template references. -/
theorem prep_get (n : LLMNode) (shared : List (String × String)) (k : String)
    (hk : k ∈ n.templateKeys) :
    dictGet (n.prep shared) k = some (n.gathered shared k) := by
  unfold LLMNode.prep
  set ctx1 := n.templateKeys.foldl (fun ctx k2 => dictSet ctx k2 (sharedGet shared k2)) [] with hctx1
  have h1 : dictGet ctx1 k = some (sharedGet shared k) :=
    foldl_dictSet_get (sharedGet shared) _ _ k hk
  set ctx2 := if dictGet ctx1 n.input_key = none then
      dictSet ctx1 n.input_key (sharedGet shared n.input_key) else ctx1 with hctx2
  have h2 : dictGet ctx2 k = some (sharedGet shared k) := by
    rw [hctx2]
    split
    · rename_i hnone
      have hkik : k ≠ n.input_key := by
        intro he
        rw [← he, h1] at hnone
        cases hnone
      rw [dictGet_dictSet_ne _ _ _ _ hkik]
      exact h1
    · exact h1
  by_cases hc : "input" ∈ n.templateKeys ∧ n.input_key ≠ "input"
  · rw [if_pos hc]
    by_cases hki : k = "input"
    · subst hki
      rw [dictGet_dictSet_self]
      unfold LLMNode.gathered
      rw [if_pos ⟨rfl, hc.2, hc.1⟩]
    · rw [dictGet_dictSet_ne _ _ _ _ hki, h2]
      unfold LLMNode.gathered
      rw [if_neg (fun hand => hki hand.1)]
  · rw [if_neg hc]
    rw [h2]
    unfold LLMNode.gathered
    have hno : ¬ (k = "input" ∧ n.input_key ≠ "input" ∧ "input" ∈ n.templateKeys) := by
      intro hand
      exact hc ⟨hand.1 ▸ hk, hand.2.1⟩
    rw [if_neg hno]

/-- On well-formed templates, the format scan succeeds and performs exactly
the substitution described by renderAux, provided the context holds every
field name it will look up. -/
theorem formatAux_renders (ctx : List (String × String)) (g : String → String)
    (mode : Option (List Char)) (l : List Char)
    (hwf : wfAux mode l = true)
    (hctx : ∀ k ∈ fieldKeys mode l, dictGet ctx k = some (g k)) :
    formatAux ctx mode l = .ok (renderAux g mode l) := by
  induction mode, l using formatAux.induct ctx with
  | case1 => simp [formatAux, renderAux]
  | case2 rest ih =>
      simp only [wfAux] at hwf
      simp only [fieldKeys] at hctx
      simp [formatAux, renderAux, ih hwf hctx]
  | case3 rest ih =>
      simp only [wfAux] at hwf
      simp only [fieldKeys] at hctx
      simp [formatAux, renderAux, ih hwf hctx]
  | case4 tail hne =>
      simp only [wfAux] at hwf
      exact Bool.noConfusion hwf
  | case5 rest hne ih =>
      simp only [wfAux, hne] at hwf
      simp only [fieldKeys, hne] at hctx
      simp [formatAux, renderAux, hne, ih hwf hctx]
  | case6 c rest h1 h2 h3 h4 ih =>
      simp only [wfAux, h1, h2, h3, h4] at hwf
      simp only [fieldKeys, h1, h2, h3, h4] at hctx
      simp [formatAux, renderAux, h1, h2, h3, h4, ih hwf hctx]
  | case7 acc =>
      simp only [wfAux] at hwf
      exact Bool.noConfusion hwf
  | case8 acc rest w hbad =>
      simp only [wfAux, Bool.and_eq_true] at hwf
      have hb : (acc.reverse.isEmpty || allDigits acc.reverse) = true := hbad
      rw [Bool.or_eq_true] at hb
      rcases hb with hb | hb
      · rw [hb] at hwf
        simp at hwf
      · rw [hb] at hwf
        simp at hwf
  | case9 acc rest w hok v hv ih =>
      simp only [wfAux, Bool.and_eq_true] at hwf
      have hhead : dictGet ctx (String.mk acc.reverse) = some (g (String.mk acc.reverse)) := by
        apply hctx
        simp [fieldKeys]
      have hv2 : dictGet ctx (String.mk acc.reverse) = some v := hv
      rw [hv2] at hhead
      injection hhead with hveq
      have hkeys : ∀ k ∈ fieldKeys none rest, dictGet ctx k = some (g k) := by
        intro k hk
        apply hctx
        simp [fieldKeys, hk]
      have hok2 : ¬ (acc.reverse.isEmpty || allDigits acc.reverse) = true := hok
      simp [formatAux, renderAux, hok2, hv2, hveq, ih hwf.2 hkeys]
  | case10 acc rest w hok hnone =>
      have hhead : dictGet ctx (String.mk acc.reverse) = some (g (String.mk acc.reverse)) := by
        apply hctx
        simp [fieldKeys]
      have hv2 : dictGet ctx (String.mk acc.reverse) = none := hnone
      rw [hv2] at hhead
      exact Option.noConfusion hhead
  | case11 acc c rest hne hword ih =>
      simp only [wfAux, hword, Bool.true_and] at hwf
      simp only [fieldKeys, hne] at hctx
      simp [formatAux, renderAux, hne, hword, ih hwf hctx]
  | case12 acc c rest hne hword =>
      simp only [wfAux, hword, Bool.false_and] at hwf
      exact Bool.noConfusion hwf

/-- Every step of the key-extraction scan only adds keys. -/
theorem extract_cons_sub (c : Char) (rest : List Char) :
    extractKeysAux rest ⊆ extractKeysAux (c :: rest) := by
  intro k hk
  simp only [extractKeysAux]
  split
  · split
    · split
      · exact hk
      · exact List.mem_cons_of_mem _ hk
    · exact hk
  · exact hk

/-- Keys extracted from a suffix are extracted from the whole list. -/
theorem extract_append_sub (pre l : List Char) :
    extractKeysAux l ⊆ extractKeysAux (pre ++ l) := by
  induction pre with
  | nil => exact fun k hk => hk
  | cons c tl ih => exact fun k hk => extract_cons_sub c (tl ++ l) (ih hk)

/-- Scanning a word prefix terminated by a closing brace. -/
theorem word_prefix_scan (w rest : List Char) (hw : w.all isWordChar = true) :
    (w ++ '}' :: rest).takeWhile isWordChar = w ∧
    (w ++ '}' :: rest).drop w.length = '}' :: rest := by
  induction w with
  | nil =>
      constructor
      · have h : isWordChar '}' = false := by decide
        simp [List.takeWhile, h]
      · rfl
  | cons a tl ih =>
      rw [List.all_cons, Bool.and_eq_true] at hw
      obtain ⟨ht, hd⟩ := ih hw.2
      constructor
      · simp [List.takeWhile, hw.1, ht]
      · exact hd

/-- Every field name a well-formed format scan looks up is found by the
regex-based key extraction over the same characters. -/
theorem fieldKeys_sub_extract (mode : Option (List Char)) (l : List Char)
    (hwf : wfAux mode l = true)
    (hacc : ∀ acc, mode = some acc → acc.all isWordChar = true) :
    ∀ k ∈ fieldKeys mode l, k ∈ extractKeysAux (modePrefix mode ++ l) := by
  induction mode, l using fieldKeys.induct with
  | case1 => simp [fieldKeys]
  | case2 rest ih =>
      simp only [wfAux] at hwf
      intro k hk
      simp only [fieldKeys] at hk
      have hin := ih hwf (fun acc h => Option.noConfusion h) k hk
      simp only [modePrefix, List.nil_append] at hin ⊢
      exact extract_cons_sub _ _ (extract_cons_sub _ _ hin)
  | case3 rest ih =>
      simp only [wfAux] at hwf
      intro k hk
      simp only [fieldKeys] at hk
      have hin := ih hwf (fun acc h => Option.noConfusion h) k hk
      simp only [modePrefix, List.nil_append] at hin ⊢
      exact extract_cons_sub _ _ (extract_cons_sub _ _ hin)
  | case4 rest hne ih =>
      simp only [wfAux, hne] at hwf
      intro k hk
      simp only [fieldKeys, hne] at hk
      have hin := ih hwf (fun acc h => by cases h; rfl) k hk
      simp only [modePrefix, List.nil_append, List.reverse_nil, List.cons_append] at hin ⊢
      exact hin
  | case5 c rest h1 h2 h3 ih =>
      by_cases hc : c = '}'
      · subst hc
        have h2x : ∀ r2, rest = '}' :: r2 → False := fun r2 hr => h2 r2 rfl hr
        simp only [wfAux, h2x] at hwf
        exact Bool.noConfusion hwf
      · simp only [wfAux, h1, h2, h3, hc] at hwf
        intro k hk
        simp only [fieldKeys, h1, h2, h3] at hk
        have hin := ih hwf (fun acc h => Option.noConfusion h) k hk
        simp only [modePrefix, List.nil_append] at hin ⊢
        exact extract_cons_sub _ _ hin
  | case6 acc =>
      simp [fieldKeys]
  | case7 acc rest ih =>
      simp only [wfAux, Bool.and_eq_true] at hwf
      have haccw : acc.all isWordChar = true := hacc acc rfl
      have hrevw : acc.reverse.all isWordChar = true := by
        rw [List.all_reverse]
        exact haccw
      obtain ⟨hscan, hdrop⟩ := word_prefix_scan acc.reverse rest hrevw
      intro k hk
      simp only [fieldKeys] at hk
      simp only [modePrefix]
      rw [List.mem_cons] at hk
      rcases hk with hk | hk
      · subst hk
        have hne : acc.reverse.isEmpty = false := by
          rcases hwf with ⟨⟨hni, _⟩, _⟩
          rw [Bool.not_eq_true'] at hni
          exact hni
        simp [List.cons_append, extractKeysAux, List.append_eq, hscan, hdrop, hne]
      · have hin := ih hwf.2 (fun a h => Option.noConfusion h) k hk
        simp only [modePrefix, List.nil_append] at hin
        have h2m : k ∈ extractKeysAux (acc.reverse ++ '}' :: rest) := by
          have := extract_append_sub (acc.reverse ++ ['}']) rest hin
          simpa using this
        exact extract_cons_sub '{' _ h2m
  | case8 acc c rest hne ih =>
      by_cases hw : isWordChar c = true
      · simp only [wfAux, hw, Bool.true_and] at hwf
        intro k hk
        simp only [fieldKeys, hne] at hk
        have haccw : acc.all isWordChar = true := hacc acc rfl
        have hin := ih hwf (fun a h => by
          cases h
          simp [List.all_cons, hw, haccw]) k hk
        simp only [modePrefix] at hin ⊢
        have heq : ('{' :: (c :: acc).reverse ++ rest) = ('{' :: acc.reverse ++ c :: rest) := by
          simp
        rw [← heq]
        exact hin
      · simp only [wfAux] at hwf
        rw [Bool.and_eq_true] at hwf
        exact absurd hwf.1 hw

end EasyFlow.Nodes

/-! Helper lemmas about dict keys, substring occurrence, and scanning. -/

namespace EasyFlow

theorem mem_dictKeys_dictSet_self {α : Type} (m : List (String × α)) (k : String) (v : α) :
    k ∈ dictKeys (dictSet m k v) := by
  induction m with
  | nil => simp [dictSet, dictKeys]
  | cons p rest ih =>
      obtain ⟨k0, v0⟩ := p
      by_cases h : k0 = k
      · simp [dictSet, dictKeys, h]
      · simp only [dictSet, if_neg h, dictKeys, List.map_cons]
        exact List.mem_cons_of_mem _ ih

theorem mem_dictKeys_dictSet_mono {α : Type} (m : List (String × α)) (k k1 : String) (v : α)
    (h : k1 ∈ dictKeys m) : k1 ∈ dictKeys (dictSet m k v) := by
  induction m with
  | nil => cases h
  | cons p rest ih =>
      obtain ⟨k0, v0⟩ := p
      rcases List.mem_cons.mp h with h1 | h1
      · by_cases he : k0 = k
        · simp [dictSet, dictKeys, he, h1]
        · simp [dictSet, dictKeys, he, h1]
      · by_cases he : k0 = k
        · simp only [dictSet, if_pos he, dictKeys, List.map_cons]
          exact List.mem_cons_of_mem _ h1
        · simp only [dictSet, if_neg he, dictKeys, List.map_cons]
          exact List.mem_cons_of_mem _ (ih h1)

theorem dictKeys_dictSet_of_isSome {α : Type} (m : List (String × α)) (k : String) (v : α)
    (h : (dictGet m k).isSome = true) : dictKeys (dictSet m k v) = dictKeys m := by
  induction m with
  | nil => simp [dictGet] at h
  | cons p rest ih =>
      obtain ⟨k0, v0⟩ := p
      by_cases he : k0 = k
      · simp [dictSet, dictKeys, he]
      · simp only [dictGet, if_neg he] at h
        simp only [dictSet, if_neg he, dictKeys, List.map_cons]
        have h2 := ih h
        simp only [dictKeys] at h2
        rw [h2]

theorem occursIn_refl (s : String) : occursIn s s :=
  ⟨[], [], by simp⟩

theorem occursIn_pyJoin (sep : String) (parts : List String) (x : String) (hx : x ∈ parts) :
    occursIn x (pyJoin sep parts) := by
  induction parts with
  | nil => cases hx
  | cons p tl ih =>
      cases tl with
      | nil =>
          have hxp : x = p := by
            rcases List.mem_cons.mp hx with h | h
            · exact h
            · cases h
          subst hxp
          exact occursIn_refl x
      | cons q tl2 =>
          rcases List.mem_cons.mp hx with h | h
          · subst h
            exact ⟨[], (sep ++ pyJoin sep (q :: tl2)).data, by
              simp [pyJoin, String.data_append]⟩
          · obtain ⟨a, b, hd⟩ := ih h
            exact ⟨(p ++ sep).data ++ a, b, by
              simp [pyJoin, String.data_append, hd]⟩

theorem occursIn_elem_pyListRepr (names : List String) (x : String) (hx : x ∈ names) :
    occursIn x (pyListRepr names) := by
  have h2 := occursIn_pyJoin ", " (names.map pyStrRepr) (pyStrRepr x)
    (List.mem_map_of_mem pyStrRepr hx)
  obtain ⟨a, b, hab⟩ := h2
  refine ⟨("[").data ++ a ++ sq.data, sq.data ++ b ++ ("]").data, ?_⟩
  simp only [pyListRepr, String.data_append, hab, pyStrRepr]
  simp [String.data_append]

theorem occursIn_unknownMsg (p : String) (names : List String) (nm : String)
    (h : nm ∈ names) : occursIn nm (unknownProviderMsg p names) := by
  obtain ⟨a, b, hd⟩ := occursIn_elem_pyListRepr names nm h
  refine ⟨("Provider " ++ pyStrRepr p ++ " not registered. " ++
            "Available providers: ").data ++ a,
          b ++ (". " ++ "Use register(" ++ pyStrRepr p ++
            ", fn) to register it.").data, ?_⟩
  simp [unknownProviderMsg, String.data_append, hd]

theorem scan_prefix (p : Char → Bool) (w : List Char) (c : Char) (rest : List Char)
    (hw : w.all p = true) (hc : p c = false) :
    (w ++ c :: rest).takeWhile p = w ∧ (w ++ c :: rest).dropWhile p = c :: rest := by
  induction w with
  | nil => constructor <;> simp [List.takeWhile, List.dropWhile, hc]
  | cons a tl ih =>
      rw [List.all_cons, Bool.and_eq_true] at hw
      obtain ⟨ht, hd⟩ := ih hw.2
      constructor
      · simp [List.takeWhile, hw.1, ht]
      · simp [List.dropWhile, hw.1, hd]

theorem contains_slash_mid (a b : List Char) : (a ++ '/' :: b).contains '/' = true := by
  induction a with
  | nil => simp [List.contains]
  | cons c tl ih => simp [List.contains] at ih ⊢

end EasyFlow

/-! Dispatch and registration inversion lemmas. -/

namespace EasyFlow.LlmU

open EasyFlow

theorem llm_parseModel_error_shape (m : Option String) (e : DispatchErr)
    (h : parseModel m = .error e) : ∃ s, e = .invalidAddress s := by
  cases m with
  | none =>
      simp only [parseModel] at h
      cases h
  | some s =>
      simp only [parseModel] at h
      by_cases hc : s ≠ "" ∧ containsChar s '/' = true
      · rw [if_pos hc] at h
        rcases hsp : splitOnce s with ⟨prov, mn⟩
        rw [hsp] at h
        by_cases hp : prov = ""
        · rw [if_pos hp] at h
          injection h with he
          exact ⟨_, he.symm⟩
        · rw [if_neg hp] at h
          cases h
      · rw [if_neg hc] at h
        cases h

theorem llm_lookup_unknown_shape (provOpt : Option String) (st : Registry)
    (msg : String)
    (h : lookupProvider provOpt st = .error (.unknownProvider msg)) :
    ∃ p, msg = unknownProviderMsg p (dictKeys st.providers) := by
  cases provOpt with
  | some p =>
      simp only [lookupProvider] at h
      cases hd : dictGet st.providers p with
      | none =>
          rw [hd] at h
          injection h with he
          injection he with hm
          exact ⟨p, hm.symm⟩
      | some fn =>
          rw [hd] at h
          cases h
  | none =>
      obtain ⟨plist, dflt⟩ := st
      cases dflt with
      | none =>
          simp only [lookupProvider] at h
          by_cases hemp : plist.isEmpty = true
          · rw [if_pos hemp] at h
            injection h with he
            cases he
          · rw [if_neg hemp] at h
            injection h with he
            cases he
      | some d =>
          simp only [lookupProvider] at h
          cases hd : dictGet plist d with
          | none =>
              rw [hd] at h
              injection h with he
              injection he with hm
              exact ⟨d, hm.symm⟩
          | some fn =>
              rw [hd] at h
              cases h

theorem llm_lookup_noProviders_shape (provOpt : Option String) (st : Registry)
    (msg : String)
    (h : lookupProvider provOpt st = .error (.noProviders msg)) :
    st.providers = [] := by
  cases provOpt with
  | some p =>
      simp only [lookupProvider] at h
      cases hd : dictGet st.providers p with
      | none => rw [hd] at h; injection h with he; cases he
      | some fn => rw [hd] at h; cases h
  | none =>
      obtain ⟨plist, dflt⟩ := st
      cases dflt with
      | none =>
          simp only [lookupProvider] at h
          by_cases hemp : plist.isEmpty = true
          · exact List.isEmpty_iff.mp hemp
          · rw [if_neg hemp] at h
            injection h with he
            cases he
      | some d =>
          simp only [lookupProvider] at h
          cases hd : dictGet plist d with
          | none => rw [hd] at h; injection h with he; cases he
          | some fn => rw [hd] at h; cases h

theorem call_llm_unknown_shape (prompt : String) (model : Option String)
    (st : Registry) (msg : String)
    (h : call_llm prompt model st = .error (.unknownProvider msg)) :
    ∃ p, msg = unknownProviderMsg p (dictKeys st.providers) := by
  unfold call_llm at h
  cases hp : parseModel model with
  | error e =>
      rw [hp] at h
      injection h with he
      obtain ⟨s, hs⟩ := llm_parseModel_error_shape model e hp
      rw [hs] at he
      cases he
  | ok pr =>
      rw [hp] at h
      obtain ⟨provOpt, modelName⟩ := pr
      have h2 : (match lookupProvider provOpt st with
          | Except.error e => Except.error e
          | Except.ok fn => Except.ok (fn prompt modelName)) =
          Except.error (DispatchErr.unknownProvider msg) := h
      cases hl : lookupProvider provOpt st with
      | error e2 =>
          rw [hl] at h2
          injection h2 with he
          rw [he] at hl
          exact llm_lookup_unknown_shape provOpt st msg hl
      | ok fn =>
          rw [hl] at h2
          cases h2

theorem call_llm_noProviders_shape (prompt : String) (model : Option String)
    (st : Registry) (msg : String)
    (h : call_llm prompt model st = .error (.noProviders msg)) :
    st.providers = [] := by
  unfold call_llm at h
  cases hp : parseModel model with
  | error e =>
      rw [hp] at h
      injection h with he
      obtain ⟨s, hs⟩ := llm_parseModel_error_shape model e hp
      rw [hs] at he
      cases he
  | ok pr =>
      rw [hp] at h
      obtain ⟨provOpt, modelName⟩ := pr
      have h2 : (match lookupProvider provOpt st with
          | Except.error e => Except.error e
          | Except.ok fn => Except.ok (fn prompt modelName)) =
          Except.error (DispatchErr.noProviders msg) := h
      cases hl : lookupProvider provOpt st with
      | error e2 =>
          rw [hl] at h2
          injection h2 with he
          rw [he] at hl
          exact llm_lookup_noProviders_shape provOpt st msg hl
      | ok fn =>
          rw [hl] at h2
          cases h2

end EasyFlow.LlmU

namespace EasyFlow.SearchU

open EasyFlow

theorem search_lookup_unknown_shape (provOpt : Option String) (st : Registry)
    (msg : String)
    (h : lookupProvider provOpt st = .error (.unknownProvider msg)) :
    ∃ p, msg = unknownProviderMsg p (dictKeys st.providers) := by
  cases provOpt with
  | some p =>
      simp only [lookupProvider] at h
      cases hd : dictGet st.providers p with
      | none =>
          rw [hd] at h
          injection h with he
          injection he with hm
          exact ⟨p, hm.symm⟩
      | some fn =>
          rw [hd] at h
          cases h
  | none =>
      obtain ⟨plist, dflt⟩ := st
      cases dflt with
      | none =>
          simp only [lookupProvider] at h
          by_cases hemp : plist.isEmpty = true
          · rw [if_pos hemp] at h
            injection h with he
            cases he
          · rw [if_neg hemp] at h
            injection h with he
            cases he
      | some d =>
          simp only [lookupProvider] at h
          cases hd : dictGet plist d with
          | none =>
              rw [hd] at h
              injection h with he
              injection he with hm
              exact ⟨d, hm.symm⟩
          | some fn =>
              rw [hd] at h
              cases h

theorem search_lookup_noProviders_shape (provOpt : Option String) (st : Registry)
    (msg : String)
    (h : lookupProvider provOpt st = .error (.noProviders msg)) :
    st.providers = [] := by
  cases provOpt with
  | some p =>
      simp only [lookupProvider] at h
      cases hd : dictGet st.providers p with
      | none => rw [hd] at h; injection h with he; cases he
      | some fn => rw [hd] at h; cases h
  | none =>
      obtain ⟨plist, dflt⟩ := st
      cases dflt with
      | none =>
          simp only [lookupProvider] at h
          by_cases hemp : plist.isEmpty = true
          · exact List.isEmpty_iff.mp hemp
          · rw [if_neg hemp] at h
            injection h with he
            cases he
      | some d =>
          simp only [lookupProvider] at h
          cases hd : dictGet plist d with
          | none => rw [hd] at h; injection h with he; cases he
          | some fn => rw [hd] at h; cases h

theorem web_search_unknown_shape (query : String) (provOpt : Option String)
    (numR : Nat) (st : Registry) (msg : String)
    (h : web_search query provOpt numR st = .error (.unknownProvider msg)) :
    ∃ p, msg = unknownProviderMsg p (dictKeys st.providers) := by
  unfold web_search at h
  cases hl : lookupProvider provOpt st with
  | error e2 =>
      rw [hl] at h
      injection h with he
      rw [he] at hl
      exact search_lookup_unknown_shape provOpt st msg hl
  | ok fn =>
      rw [hl] at h
      cases h

theorem web_search_noProviders_shape (query : String) (provOpt : Option String)
    (numR : Nat) (st : Registry) (msg : String)
    (h : web_search query provOpt numR st = .error (.noProviders msg)) :
    st.providers = [] := by
  unfold web_search at h
  cases hl : lookupProvider provOpt st with
  | error e2 =>
      rw [hl] at h
      injection h with he
      rw [he] at hl
      exact search_lookup_noProviders_shape provOpt st msg hl
  | ok fn =>
      rw [hl] at h
      cases h

end EasyFlow.SearchU

namespace EasyFlow.EmbdU

open EasyFlow

theorem embd_parseModel_error_shape (m : Option String) (e : DispatchErr)
    (h : parseModel m = .error e) : ∃ s, e = .invalidAddress s := by
  cases m with
  | none =>
      simp only [parseModel] at h
      cases h
  | some s =>
      simp only [parseModel] at h
      by_cases hc : s ≠ "" ∧ containsChar s '/' = true
      · rw [if_pos hc] at h
        rcases hsp : splitOnce s with ⟨prov, mn⟩
        rw [hsp] at h
        by_cases hp : prov = ""
        · rw [if_pos hp] at h
          injection h with he
          exact ⟨_, he.symm⟩
        · rw [if_neg hp] at h
          cases h
      · rw [if_neg hc] at h
        cases h

theorem embd_lookup_unknown_shape (provOpt : Option String) (st : Registry)
    (msg : String)
    (h : lookupProvider provOpt st = .error (.unknownProvider msg)) :
    ∃ p, msg = unknownProviderMsg p (dictKeys st.providers) := by
  cases provOpt with
  | some p =>
      simp only [lookupProvider] at h
      cases hd : dictGet st.providers p with
      | none =>
          rw [hd] at h
          injection h with he
          injection he with hm
          exact ⟨p, hm.symm⟩
      | some fn =>
          rw [hd] at h
          cases h
  | none =>
      obtain ⟨plist, dflt⟩ := st
      cases dflt with
      | none =>
          simp only [lookupProvider] at h
          by_cases hemp : plist.isEmpty = true
          · rw [if_pos hemp] at h
            injection h with he
            cases he
          · rw [if_neg hemp] at h
            injection h with he
            cases he
      | some d =>
          simp only [lookupProvider] at h
          cases hd : dictGet plist d with
          | none =>
              rw [hd] at h
              injection h with he
              injection he with hm
              exact ⟨d, hm.symm⟩
          | some fn =>
              rw [hd] at h
              cases h

theorem embd_lookup_noProviders_shape (provOpt : Option String) (st : Registry)
    (msg : String)
    (h : lookupProvider provOpt st = .error (.noProviders msg)) :
    st.providers = [] := by
  cases provOpt with
  | some p =>
      simp only [lookupProvider] at h
      cases hd : dictGet st.providers p with
      | none => rw [hd] at h; injection h with he; cases he
      | some fn => rw [hd] at h; cases h
  | none =>
      obtain ⟨plist, dflt⟩ := st
      cases dflt with
      | none =>
          simp only [lookupProvider] at h
          by_cases hemp : plist.isEmpty = true
          · exact List.isEmpty_iff.mp hemp
          · rw [if_neg hemp] at h
            injection h with he
            cases he
      | some d =>
          simp only [lookupProvider] at h
          cases hd : dictGet plist d with
          | none => rw [hd] at h; injection h with he; cases he
          | some fn => rw [hd] at h; cases h

theorem embed_unknown_shape (text : String) (model : Option String)
    (st : Registry) (msg : String)
    (h : embed text model st = .error (.unknownProvider msg)) :
    ∃ p, msg = unknownProviderMsg p (dictKeys st.providers) := by
  unfold embed at h
  cases hp : parseModel model with
  | error e =>
      rw [hp] at h
      injection h with he
      obtain ⟨s, hs⟩ := embd_parseModel_error_shape model e hp
      rw [hs] at he
      cases he
  | ok pr =>
      rw [hp] at h
      obtain ⟨provOpt, modelName⟩ := pr
      have h2 : (match lookupProvider provOpt st with
          | Except.error e => Except.error e
          | Except.ok fn => Except.ok (fn text modelName)) =
          Except.error (DispatchErr.unknownProvider msg) := h
      cases hl : lookupProvider provOpt st with
      | error e2 =>
          rw [hl] at h2
          injection h2 with he
          rw [he] at hl
          exact embd_lookup_unknown_shape provOpt st msg hl
      | ok fn =>
          rw [hl] at h2
          cases h2

theorem embed_noProviders_shape (text : String) (model : Option String)
    (st : Registry) (msg : String)
    (h : embed text model st = .error (.noProviders msg)) :
    st.providers = [] := by
  unfold embed at h
  cases hp : parseModel model with
  | error e =>
      rw [hp] at h
      injection h with he
      obtain ⟨s, hs⟩ := embd_parseModel_error_shape model e hp
      rw [hs] at he
      cases he
  | ok pr =>
      rw [hp] at h
      obtain ⟨provOpt, modelName⟩ := pr
      have h2 : (match lookupProvider provOpt st with
          | Except.error e => Except.error e
          | Except.ok fn => Except.ok (fn text modelName)) =
          Except.error (DispatchErr.noProviders msg) := h
      cases hl : lookupProvider provOpt st with
      | error e2 =>
          rw [hl] at h2
          injection h2 with he
          rw [he] at hl
          exact embd_lookup_noProviders_shape provOpt st msg hl
      | ok fn =>
          rw [hl] at h2
          cases h2

end EasyFlow.EmbdU

namespace EasyFlow.LlmU

open EasyFlow

theorem llm_register_ok_shape (n : String) (f : Fn) (st st2 : Registry)
    (h : register n f st = .ok st2) :
    registerNameError n = none ∧
    st2.providers = dictSet st.providers n f ∧
    st2.default = (match st.default with | none => some n | some d => some d) := by
  unfold register at h
  cases hv : registerNameError n with
  | some e => rw [hv] at h; cases h
  | none =>
      rw [hv] at h
      injection h with he
      refine ⟨rfl, ?_, ?_⟩ <;> rw [← he]

theorem regFold_default_some (calls : List (String × Fn)) (st : Registry) (d : String)
    (h : st.default = some d) : (regFold calls st).default = some d := by
  induction calls generalizing st with
  | nil => exact h
  | cons c tl ih =>
      obtain ⟨n, f⟩ := c
      simp only [regFold]
      cases hr : register n f st with
      | ok st2 =>
          apply ih
          obtain ⟨_, _, hdf⟩ := llm_register_ok_shape n f st st2 hr
          rw [hdf, h]
      | error e => exact ih st h

theorem regFold_none_inv (calls : List (String × Fn)) (st : Registry)
    (h : st.default = none → st.providers = []) :
    (regFold calls st).default = none → (regFold calls st).providers = [] := by
  induction calls generalizing st with
  | nil => exact h
  | cons c tl ih =>
      obtain ⟨n, f⟩ := c
      simp only [regFold]
      cases hr : register n f st with
      | ok st2 =>
          apply ih
          obtain ⟨_, _, hdf⟩ := llm_register_ok_shape n f st st2 hr
          intro hnone
          rw [hdf] at hnone
          cases hd : st.default with
          | none => rw [hd] at hnone; cases hnone
          | some d0 => rw [hd] at hnone; cases hnone
      | error e => exact ih st h

theorem reachable_nonempty_default (st : Registry) (hr : Reachable st)
    (hne : st.providers ≠ []) : ∃ d, st.default = some d := by
  obtain ⟨calls, hc⟩ := hr
  cases hd : st.default with
  | some d => exact ⟨d, rfl⟩
  | none =>
      have hinv := regFold_none_inv calls emptyRegistry (fun _ => rfl)
      rw [hc] at hinv
      exact absurd (hinv hd) hne

end EasyFlow.LlmU

namespace EasyFlow.SearchU

open EasyFlow

theorem search_register_ok_shape (n : String) (f : Fn) (st st2 : Registry)
    (h : register n f st = .ok st2) :
    registerNameError n = none ∧
    st2.providers = dictSet st.providers n f ∧
    st2.default = (match st.default with | none => some n | some d => some d) := by
  unfold register at h
  cases hv : registerNameError n with
  | some e => rw [hv] at h; cases h
  | none =>
      rw [hv] at h
      injection h with he
      refine ⟨rfl, ?_, ?_⟩ <;> rw [← he]

end EasyFlow.SearchU

namespace EasyFlow.EmbdU

open EasyFlow

theorem embd_register_ok_shape (n : String) (f : Fn) (st st2 : Registry)
    (h : register n f st = .ok st2) :
    registerNameError n = none ∧
    st2.providers = dictSet st.providers n f ∧
    st2.default = (match st.default with | none => some n | some d => some d) := by
  unfold register at h
  cases hv : registerNameError n with
  | some e => rw [hv] at h; cases h
  | none =>
      rw [hv] at h
      injection h with he
      refine ⟨rfl, ?_, ?_⟩ <;> rw [← he]

end EasyFlow.EmbdU

/-! The claims. -/

namespace EasyFlow

/-- Claim C1, counterexample: with one provider registered (name zz) and
the default cleared by the administrative reset the spec itself allows, a
dispatch with no provider fails with the NoProviderConfigured variant
whose message does not contain the registered name zz — so not every
provider-lookup failure message enumerates the registered provider
names. -/
theorem c1_counterexample :
    "zz" ∈ dictKeys c1Reg.providers ∧
    LlmU.call_llm "hi" none c1Reg =
      .error (.noDefault "No default provider set and no provider specified in model") ∧
    ¬ occursIn "zz" "No default provider set and no provider specified in model" := by
  refine ⟨by decide, by rfl, ?_⟩
  rintro ⟨a, b, hd⟩
  have hz : 'z' ∈ ("No default provider set and no provider specified in model").data := by
    rw [hd]
    simp [show ("zz" : String).data = ['z', 'z'] from rfl]
  exact absurd hz (by decide)

/-- Claim C1 (amended): for every dispatch entry point of the three
domains, an UnknownProvider failure message contains every registered
provider name (stated for names without quote characters, where the
modelled repr matches CPython); a NoProviderConfigured failure of the
no-providers variant implies the registry is empty, so its message
contains the registered names only vacuously — the cleared-default
variant enumerates no names. -/
theorem c1_error_messages_list_providers :
    (∀ prompt model st msg,
       (∀ nm ∈ dictKeys st.providers, containsChar nm (Char.ofNat 39) = false) →
       LlmU.call_llm prompt model st = .error (.unknownProvider msg) →
       ∀ nm ∈ dictKeys st.providers, occursIn nm msg) ∧
    (∀ query prov numR st msg,
       (∀ nm ∈ dictKeys st.providers, containsChar nm (Char.ofNat 39) = false) →
       SearchU.web_search query prov numR st = .error (.unknownProvider msg) →
       ∀ nm ∈ dictKeys st.providers, occursIn nm msg) ∧
    (∀ text model st msg,
       (∀ nm ∈ dictKeys st.providers, containsChar nm (Char.ofNat 39) = false) →
       EmbdU.embed text model st = .error (.unknownProvider msg) →
       ∀ nm ∈ dictKeys st.providers, occursIn nm msg) ∧
    (∀ prompt model st msg, LlmU.call_llm prompt model st = .error (.noProviders msg) →
       st.providers = []) ∧
    (∀ query prov numR st msg,
       SearchU.web_search query prov numR st = .error (.noProviders msg) →
       st.providers = []) ∧
    (∀ text model st msg, EmbdU.embed text model st = .error (.noProviders msg) →
       st.providers = []) := by
  refine ⟨?_, ?_, ?_, ?_, ?_, ?_⟩
  · intro prompt model st msg hq h nm hnm
    obtain ⟨p, hmsg⟩ := LlmU.call_llm_unknown_shape prompt model st msg h
    rw [hmsg]
    exact occursIn_unknownMsg p _ nm hnm
  · intro query prov numR st msg hq h nm hnm
    obtain ⟨p, hmsg⟩ := SearchU.web_search_unknown_shape query prov numR st msg h
    rw [hmsg]
    exact occursIn_unknownMsg p _ nm hnm
  · intro text model st msg hq h nm hnm
    obtain ⟨p, hmsg⟩ := EmbdU.embed_unknown_shape text model st msg h
    rw [hmsg]
    exact occursIn_unknownMsg p _ nm hnm
  · exact LlmU.call_llm_noProviders_shape
  · exact SearchU.web_search_noProviders_shape
  · exact EmbdU.embed_noProviders_shape

/-- Claim C1, witness: a concrete UnknownProvider failure whose message
contains both registered names. -/
theorem c1_witness :
    LlmU.call_llm "hi" (some "gamma/x") c1WitnessReg =
      .error (.unknownProvider (unknownProviderMsg "gamma" ["alpha", "beta"])) ∧
    occursIn "alpha" (unknownProviderMsg "gamma" ["alpha", "beta"]) ∧
    occursIn "beta" (unknownProviderMsg "gamma" ["alpha", "beta"]) := by
  refine ⟨by rfl, ?_, ?_⟩
  · exact c1_error_messages_list_providers.1 "hi" (some "gamma/x") c1WitnessReg _
      (by decide) (by rfl) "alpha" (by decide)
  · exact c1_error_messages_list_providers.1 "hi" (some "gamma/x") c1WitnessReg _
      (by decide) (by rfl) "beta" (by decide)

/-- Claim C2, counterexample: the same address string behaves differently
across domains — generation splits provider a off the address a/b and
dispatches successfully, while search uses the whole string a/b as the
lookup key and fails with UnknownProvider, so the three domains do not
apply the same address-resolution algorithm. -/
theorem c2_counterexample :
    LlmU.call_llm "q" (some "a/b") c2LlmReg = .ok "q|b" ∧
    SearchU.web_search "q" (some "a/b") 5 c2SearchReg =
      .error (.unknownProvider (unknownProviderMsg "a/b" ["a"])) := by
  constructor
  · rfl
  · rfl

/-- Claim C2 (amended): generation and embedding share one
address-resolution algorithm — split once on the first slash, fail with
InvalidAddressFormat when the provider part is empty, pass a slash-free or
absent address through with an absent provider — while the search entry
point performs no address parsing at all: its provider argument is used
verbatim as the registry lookup key. -/
theorem c2_address_resolution :
    (∀ m, LlmU.parseModel m = EmbdU.parseModel m) ∧
    (∀ pre suf : String, containsChar pre '/' = false → pre ≠ "" →
       LlmU.parseModel (some (pre ++ "/" ++ suf)) = .ok (some pre, some suf)) ∧
    (∀ suf : String, LlmU.parseModel (some ("/" ++ suf)) =
       .error (.invalidAddress ("Invalid model format " ++ pyStrRepr ("/" ++ suf) ++
         ": provider part is empty"))) ∧
    (∀ s : String, containsChar s '/' = false →
       LlmU.parseModel (some s) = .ok (none, some s)) ∧
    (LlmU.parseModel none = .ok (none, none)) ∧
    (∀ (q p : String) (numR : Nat) (st : SearchU.Registry),
       SearchU.web_search q (some p) numR st =
         match dictGet st.providers p with
         | none => .error (.unknownProvider (unknownProviderMsg p (dictKeys st.providers)))
         | some fn => .ok (fn q numR)) := by
  refine ⟨fun m => rfl, ?_, ?_, ?_, rfl, ?_⟩
  · intro pre suf hns hne
    have hdata : (pre ++ "/" ++ suf).data = pre.data ++ '/' :: suf.data := by
      simp [String.data_append]
    have hall : pre.data.all (fun c => decide (c ≠ '/')) = true := by
      rw [List.all_eq_true]
      intro c hcmem
      rw [decide_eq_true_iff]
      intro he
      subst he
      have hct : containsChar pre '/' = true := by
        simpa [containsChar] using hcmem
      rw [hct] at hns
      cases hns
    obtain ⟨htake, hdrop⟩ := scan_prefix (fun c => decide (c ≠ '/')) pre.data '/' suf.data
      hall (by simp)
    have hmne : (pre ++ "/" ++ suf) ≠ "" := by
      intro he
      have hcd := congrArg String.data he
      rw [hdata] at hcd
      cases pre.data <;> simp at hcd
    have hmc : containsChar (pre ++ "/" ++ suf) '/' = true := by
      rw [containsChar, hdata]
      exact contains_slash_mid _ _
    simp only [LlmU.parseModel]
    rw [if_pos ⟨hmne, hmc⟩]
    have hsplit : splitOnce (pre ++ "/" ++ suf) = (pre, suf) := by
      unfold splitOnce
      rw [hdata, htake, hdrop]
      simp
    rw [hsplit]
    simp [hne]
  · intro suf
    have hdata : ("/" ++ suf).data = '/' :: suf.data := by
      simp [String.data_append]
    have hmne : ("/" ++ suf) ≠ "" := by
      intro he
      have hcd := congrArg String.data he
      rw [hdata] at hcd
      simp at hcd
    have hmc : containsChar ("/" ++ suf) '/' = true := by
      rw [containsChar, hdata]
      exact contains_slash_mid [] _
    simp only [LlmU.parseModel]
    rw [if_pos ⟨hmne, hmc⟩]
    have hsplit : splitOnce ("/" ++ suf) = ("", ⟨suf.data⟩) := by
      unfold splitOnce
      rw [hdata]
      simp [List.takeWhile, List.dropWhile]
    rw [hsplit]
    simp
  · intro s hc
    simp only [LlmU.parseModel]
    rw [if_neg (fun hand => by rw [hc] at hand; cases hand.2)]
  · intro q p numR st
    cases hd : dictGet st.providers p with
    | none =>
        simp only [SearchU.web_search, SearchU.lookupProvider, hd]
    | some fn =>
        simp only [SearchU.web_search, SearchU.lookupProvider, hd]

/-- Claim C2, witness: the split and the pass-through cases at concrete
addresses. -/
theorem c2_witness :
    (containsChar "ab" '/' = false ∧ ("ab" : String) ≠ "") ∧
    LlmU.parseModel (some ("ab" ++ "/" ++ "m")) = .ok (some "ab", some "m") ∧
    LlmU.parseModel (some "plain") = .ok (none, some "plain") := by
  refine ⟨⟨by decide, by decide⟩, ?_, ?_⟩
  · exact c2_address_resolution.2.1 "ab" "m" (by decide) (by decide)
  · exact c2_address_resolution.2.2.2.1 "plain" (by decide)

end EasyFlow

namespace EasyFlow.Nodes

open EasyFlow

/-- Claim C3, counterexample: the template consisting of the single
replacement field named 0 is gathered by prep (the extraction regex
matches it), yet rendering raises — CPython routes an all-digit field
name to positional lookup and str.format(**context) passes no positional
arguments — so rendering is not total over all template strings. -/
theorem c3_counterexample :
    "0" ∈ c3Node.templateKeys ∧
    pythonFormat c3Node.prompt_template (c3Node.prep []) =
      .error "IndexError: replacement index out of range" := by
  constructor
  · decide
  · decide

/-- Claim C3 (amended): for every well-formed template — literal text,
escaped braces, and replacement fields that are word-character names not
made of digits only — and every shared context, rendering over the
gathered context succeeds and substitutes each referenced placeholder
with its gathered value, and a key absent from the shared context gathers
as the empty string. -/
theorem c3_template_rendering_total (n : LLMNode) (shared : List (String × String))
    (hwf : wfTemplate n.prompt_template = true) :
    pythonFormat n.prompt_template (n.prep shared) =
      .ok ⟨renderAux (n.gathered shared) none n.prompt_template.data⟩ ∧
    ∀ k, dictGet shared k = none → sharedGet shared k = "" := by
  constructor
  · have hkeys : ∀ k ∈ fieldKeys none n.prompt_template.data,
        dictGet (n.prep shared) k = some (n.gathered shared k) := by
      intro k hk
      have hk2 := fieldKeys_sub_extract none n.prompt_template.data hwf
        (fun a h => Option.noConfusion h) k hk
      simp only [modePrefix, List.nil_append] at hk2
      exact prep_get n shared k hk2
    unfold pythonFormat
    rw [formatAux_renders (n.prep shared) (n.gathered shared) none
      n.prompt_template.data hwf hkeys]
    rfl
  · intro k h
    simp [sharedGet, h]

/-- Claim C3, witness: a concrete well-formed template rendered over a
concrete shared context. -/
theorem c3_witness :
    wfTemplate c3WitnessNode.prompt_template = true ∧
    pythonFormat c3WitnessNode.prompt_template (c3WitnessNode.prep [("name", "Ada")]) =
      .ok "Hello Ada!" := by
  constructor
  · decide
  · rw [(c3_template_rendering_total c3WitnessNode [("name", "Ada")] (by decide)).1]
    decide

/-- Claim C4: the search result formatter returns the raw record list
unchanged when formatting is disabled; with formatting enabled an empty
list yields exactly the no-results string, and a nonempty list yields one
numbered block per record in input order, in the spec shape with the
fixed per-field defaults, joined by a blank line — shown both in general
against the spec-side block definition and on the two-record example. -/
theorem c4_search_result_formatter :
    (∀ (n : SearchNode) (st : SearchU.Registry) (q : String),
       n.format_results = false → q.isEmpty = false →
       SearchNode.exec n st q =
         Except.map SearchOut.raw
           (SearchU.web_search q n.provider n.num_results st)) ∧
    SearchNode.formatResults [] = "No results found." ∧
    (∀ rs : List SearchU.SearchRecord, rs.isEmpty = false →
       SearchNode.formatResults rs =
         pyJoin "\n\n" (rs.enum.map (fun p => formatBlockSpec (p.1 + 1) p.2))) ∧
    SearchNode.formatResults
        [⟨some "T1", some "S1", some "u1"⟩, ⟨some "T2", some "S2", some "u2"⟩] =
      "1. T1\n   S1\n   URL: u1" ++ "\n\n" ++ "2. T2\n   S2\n   URL: u2" := by
  refine ⟨?_, rfl, ?_, by decide⟩
  · intro n st q hf hq
    simp only [SearchNode.exec, hq, hf]
    cases hw : SearchU.web_search q n.provider n.num_results st with
    | error e => simp [hw, Except.map]
    | ok rs => simp [hw, Except.map]
  · intro rs hrs
    simp only [SearchNode.formatResults, hrs]
    rw [if_neg (by simp [hrs])]
    rfl

/-- Claim C4, witness: the pass-through and general-shape conjuncts at
concrete inputs. -/
theorem c4_witness :
    (c4Node.format_results = false ∧ ("x" : String).isEmpty = false) ∧
    SearchNode.exec c4Node c4Reg "x" =
      Except.map SearchOut.raw
        (SearchU.web_search "x" c4Node.provider c4Node.num_results c4Reg) ∧
    SearchNode.formatResults [⟨none, none, none⟩] =
      pyJoin "\n\n" (([⟨none, none, none⟩] : List SearchU.SearchRecord).enum.map
        (fun p => formatBlockSpec (p.1 + 1) p.2)) := by
  refine ⟨⟨rfl, rfl⟩, ?_, ?_⟩
  · exact c4_search_result_formatter.1 c4Node c4Reg "x" rfl rfl
  · exact c4_search_result_formatter.2.2.1 [⟨none, none, none⟩] rfl

end EasyFlow.Nodes

namespace EasyFlow

/-- Claim C5: in a sequence of valid register calls starting from the
fresh registry, the default equals the first name registered; once a
default is set, no successful register call changes it; and in any
reachable registry, re-registering an existing name replaces its function
without changing the key set or the default. -/
theorem c5_default_provider_election :
    (∀ (n : String) (f : LlmU.Fn) (rest : List (String × LlmU.Fn)),
       registerNameError n = none →
       (∀ p ∈ rest, registerNameError p.1 = none) →
       (LlmU.regFold ((n, f) :: rest) LlmU.emptyRegistry).default = some n) ∧
    (∀ (st : LlmU.Registry) (n : String) (f : LlmU.Fn) (st2 : LlmU.Registry) (d : String),
       LlmU.register n f st = .ok st2 → st.default = some d → st2.default = some d) ∧
    (∀ (st : LlmU.Registry) (n : String) (f g : LlmU.Fn) (st2 : LlmU.Registry),
       LlmU.Reachable st → dictGet st.providers n = some g →
       LlmU.register n f st = .ok st2 →
       dictGet st2.providers n = some f ∧
       dictKeys st2.providers = dictKeys st.providers ∧
       st2.default = st.default) := by
  refine ⟨?_, ?_, ?_⟩
  · intro n f rest hn hrest
    simp only [LlmU.regFold]
    cases hr : LlmU.register n f LlmU.emptyRegistry with
    | error e =>
        unfold LlmU.register at hr
        rw [hn] at hr
        cases hr
    | ok st2 =>
        obtain ⟨_, _, hdf⟩ := LlmU.llm_register_ok_shape n f _ st2 hr
        exact LlmU.regFold_default_some rest st2 n (by rw [hdf]; rfl)
  · intro st n f st2 d hreg hd
    obtain ⟨_, _, hdf⟩ := LlmU.llm_register_ok_shape n f st st2 hreg
    rw [hdf, hd]
  · intro st n f g st2 hreach hget hreg
    obtain ⟨hv, hprov, hdf⟩ := LlmU.llm_register_ok_shape n f st st2 hreg
    have hne : st.providers ≠ [] := by
      intro he
      rw [he] at hget
      simp [dictGet] at hget
    obtain ⟨d, hd⟩ := LlmU.reachable_nonempty_default st hreach hne
    refine ⟨?_, ?_, ?_⟩
    · rw [hprov]
      exact dictGet_dictSet_self _ _ _
    · rw [hprov]
      exact dictKeys_dictSet_of_isSome _ _ _ (by rw [hget]; rfl)
    · rw [hdf, hd]

/-- Claim C5, witness: a two-call sequence elects the first name, and a
concrete re-registration replaces the function while keeping keys and
default. -/
theorem c5_witness :
    (LlmU.regFold [("p1", w5f), ("p2", w5g)] LlmU.emptyRegistry).default = some "p1" ∧
    (dictGet (⟨[("a", w5g)], some "a"⟩ : LlmU.Registry).providers "a" = some w5g ∧
     dictKeys (⟨[("a", w5g)], some "a"⟩ : LlmU.Registry).providers = dictKeys c5St.providers ∧
     (⟨[("a", w5g)], some "a"⟩ : LlmU.Registry).default = c5St.default) := by
  constructor
  · exact c5_default_provider_election.1 "p1" w5f [("p2", w5g)] (by decide) (by decide)
  · exact c5_default_provider_election.2.2 c5St "a" w5g w5f ⟨[("a", w5g)], some "a"⟩
      ⟨[("a", w5f)], rfl⟩ rfl rfl

end EasyFlow

namespace EasyFlow.Nodes

open EasyFlow

/-- Claim C6: when the configured input_key differs from input and the
template references the placeholder named input, prep exposes the shared
value stored under input_key beneath the alias input, and the default
template consisting of that single placeholder renders to exactly that
value. -/
theorem c6_input_alias (n : LLMNode) (shared : List (String × String))
    (hne : n.input_key ≠ "input") (href : "input" ∈ n.templateKeys) :
    dictGet (n.prep shared) "input" = some (sharedGet shared n.input_key) ∧
    (n.prompt_template = "{input}" →
      pythonFormat n.prompt_template (n.prep shared) =
        .ok (sharedGet shared n.input_key)) := by
  have hgather : n.gathered shared "input" = sharedGet shared n.input_key := by
    unfold LLMNode.gathered
    rw [if_pos ⟨rfl, hne, href⟩]
  constructor
  · rw [prep_get n shared "input" href, hgather]
  · intro htmpl
    have hwf : wfTemplate n.prompt_template = true := by
      rw [wfTemplate, htmpl]
      decide
    have hkeys : ∀ k ∈ fieldKeys none n.prompt_template.data,
        dictGet (n.prep shared) k = some (n.gathered shared k) := by
      intro k hk
      have hk2 := fieldKeys_sub_extract none n.prompt_template.data hwf
        (fun a h => Option.noConfusion h) k hk
      simp only [modePrefix, List.nil_append] at hk2
      exact prep_get n shared k hk2
    unfold pythonFormat
    rw [formatAux_renders (n.prep shared) (n.gathered shared) none
      n.prompt_template.data hwf hkeys, htmpl]
    have hrender : renderAux (n.gathered shared) none ("{input}").data =
        (n.gathered shared "input").data := by
      show renderAux (n.gathered shared) none
        ['{', 'i', 'n', 'p', 'u', 't', '}'] = _
      simp [renderAux]
    rw [hrender]
    show Except.ok (String.mk (n.gathered shared "input").data) = _
    rw [hgather]

/-- Claim C6, witness: an adapter with input_key question and the default
template substitutes the value stored under question. -/
theorem c6_witness :
    (c6Node.input_key ≠ "input" ∧ "input" ∈ c6Node.templateKeys) ∧
    dictGet (c6Node.prep [("question", "42")]) "input" = some "42" ∧
    pythonFormat c6Node.prompt_template (c6Node.prep [("question", "42")]) =
      .ok "42" := by
  refine ⟨⟨by decide, by decide⟩, ?_, ?_⟩
  · rw [(c6_input_alias c6Node [("question", "42")] (by decide) (by decide)).1]
    decide
  · rw [(c6_input_alias c6Node [("question", "42")] (by decide) (by decide)).2 rfl]
    decide

/-- Claim C7: with the mock echo provider registered under the name echo,
the adapter configured with the default template and model echo/m1, run
through the prep, exec and post phases over the shared context mapping
input to hi, leaves the shared context with output mapped to m1:hi. -/
theorem c7_end_to_end_echo :
    LLMNode.run echoNode echoReg [("input", "hi")] =
      .ok [("input", "hi"), ("output", "m1:hi")] := by
  rfl

/-- Claim C8: for every search adapter configuration and every registry —
including one with no providers at all — an empty gathered query makes the
produce phase return the empty result of the configured shape without
raising, which shows no provider is consulted. -/
theorem c8_empty_query_short_circuit (n : SearchNode) (st : SearchU.Registry) :
    SearchNode.exec n st "" =
      .ok (if n.format_results then .formatted "" else .raw []) := rfl

end EasyFlow.Nodes

namespace EasyFlow

/-- Claim C10: in each of the three registries the invariant — whenever
the default is set, it is a key of the providers mapping — holds in the
empty registry and is preserved by every successful register call, which
also never removes a key; dispatch functions read the registry without
returning a modified state, so they preserve every state property. -/
theorem c10_registry_invariant :
    ((∀ d, LlmU.emptyRegistry.default = some d →
        d ∈ dictKeys LlmU.emptyRegistry.providers) ∧
     (∀ (n : String) (f : LlmU.Fn) (st st2 : LlmU.Registry),
        LlmU.register n f st = .ok st2 →
        (∀ d, st.default = some d → d ∈ dictKeys st.providers) →
        ((∀ d, st2.default = some d → d ∈ dictKeys st2.providers) ∧
         (∀ k, k ∈ dictKeys st.providers → k ∈ dictKeys st2.providers)))) ∧
    ((∀ d, SearchU.emptyRegistry.default = some d →
        d ∈ dictKeys SearchU.emptyRegistry.providers) ∧
     (∀ (n : String) (f : SearchU.Fn) (st st2 : SearchU.Registry),
        SearchU.register n f st = .ok st2 →
        (∀ d, st.default = some d → d ∈ dictKeys st.providers) →
        ((∀ d, st2.default = some d → d ∈ dictKeys st2.providers) ∧
         (∀ k, k ∈ dictKeys st.providers → k ∈ dictKeys st2.providers)))) ∧
    ((∀ d, EmbdU.emptyRegistry.default = some d →
        d ∈ dictKeys EmbdU.emptyRegistry.providers) ∧
     (∀ (n : String) (f : EmbdU.Fn) (st st2 : EmbdU.Registry),
        EmbdU.register n f st = .ok st2 →
        (∀ d, st.default = some d → d ∈ dictKeys st.providers) →
        ((∀ d, st2.default = some d → d ∈ dictKeys st2.providers) ∧
         (∀ k, k ∈ dictKeys st.providers → k ∈ dictKeys st2.providers)))) := by
  refine ⟨⟨?_, ?_⟩, ⟨?_, ?_⟩, ⟨?_, ?_⟩⟩
  · intro _ hd
    exact Option.noConfusion hd
  · intro n f st st2 hreg hinv
    obtain ⟨hv, hprov, hdf⟩ := LlmU.llm_register_ok_shape n f st st2 hreg
    constructor
    · intro d hd
      rw [hdf] at hd
      cases hsd : st.default with
      | none =>
          rw [hsd] at hd
          injection hd with he
          rw [hprov, ← he]
          exact mem_dictKeys_dictSet_self _ _ _
      | some d0 =>
          rw [hsd] at hd
          injection hd with he
          rw [hprov, ← he]
          exact mem_dictKeys_dictSet_mono _ _ _ _ (hinv d0 hsd)
    · intro k hk
      rw [hprov]
      exact mem_dictKeys_dictSet_mono _ _ _ _ hk
  · intro _ hd
    exact Option.noConfusion hd
  · intro n f st st2 hreg hinv
    obtain ⟨hv, hprov, hdf⟩ := SearchU.search_register_ok_shape n f st st2 hreg
    constructor
    · intro d hd
      rw [hdf] at hd
      cases hsd : st.default with
      | none =>
          rw [hsd] at hd
          injection hd with he
          rw [hprov, ← he]
          exact mem_dictKeys_dictSet_self _ _ _
      | some d0 =>
          rw [hsd] at hd
          injection hd with he
          rw [hprov, ← he]
          exact mem_dictKeys_dictSet_mono _ _ _ _ (hinv d0 hsd)
    · intro k hk
      rw [hprov]
      exact mem_dictKeys_dictSet_mono _ _ _ _ hk
  · intro _ hd
    exact Option.noConfusion hd
  · intro n f st st2 hreg hinv
    obtain ⟨hv, hprov, hdf⟩ := EmbdU.embd_register_ok_shape n f st st2 hreg
    constructor
    · intro d hd
      rw [hdf] at hd
      cases hsd : st.default with
      | none =>
          rw [hsd] at hd
          injection hd with he
          rw [hprov, ← he]
          exact mem_dictKeys_dictSet_self _ _ _
      | some d0 =>
          rw [hsd] at hd
          injection hd with he
          rw [hprov, ← he]
          exact mem_dictKeys_dictSet_mono _ _ _ _ (hinv d0 hsd)
    · intro k hk
      rw [hprov]
      exact mem_dictKeys_dictSet_mono _ _ _ _ hk

/-- Claim C10, witness: the invariant established by a first concrete
register call from the empty registry. -/
theorem c10_witness :
    (∀ d, (⟨[("a", w5f)], some "a"⟩ : LlmU.Registry).default = some d →
       d ∈ dictKeys (⟨[("a", w5f)], some "a"⟩ : LlmU.Registry).providers) ∧
    (∀ k, k ∈ dictKeys LlmU.emptyRegistry.providers →
       k ∈ dictKeys (⟨[("a", w5f)], some "a"⟩ : LlmU.Registry).providers) :=
  c10_registry_invariant.1.2 "a" w5f LlmU.emptyRegistry ⟨[("a", w5f)], some "a"⟩
    rfl (fun _ hd => Option.noConfusion hd)

end EasyFlow
